import Mathlib

/-!
Shallow embedding of the buffer-to-database synchronization core of the
Income-Expense-Tracker repository.

Embedded code:
  * `src/pc_bot/sync.py` — `get_db_connection`, `get_account_id`,
    `insert_transaction`, `sync_buffer`;
  * `src/cloud_bot/cloud_bot.py` — `load_buffer`.

Modelling conventions:
  * Scalar JSON values carried by a buffer record (amount, date, ...) are
    never computed with by the synchronizer, only copied into the insert
    tuple, so they are represented opaquely as `String`.
  * A Python dict for a buffer record may lack keys; every field is an
    `Option String` and subscripting is `getKey`, which raises `KeyError`
    (modelled with `Except`) on a missing key.
  * The buffer file on disk is a `FileState`: absent, unparseable
    (`json.load` raises `JSONDecodeError`), or a parsed list of records.
  * The SQLite store is the `accounts` list (read-only here) plus the
    committed `transactions` rows.  A connection's open transaction is a
    `Conn` holding the rows staged (executed but not committed) so far;
    commit appends them to the durable rows, rollback discards them.
  * External-failure nondeterminism is a parameter: `insertFails` tells
    which `INSERT` executions raise `sqlite3.Error`, `connectFails` whether
    `sqlite3.connect` raises, `dbExists` whether the database file exists.
  * `sys.exit(1)` is the `SyncOutcome.exited 1` outcome: `sync_buffer`
    never produces a `returned` count on that path.
-/

namespace ExpenseSync

/-- Python exceptions that the embedded code can raise or catch. -/
inductive PyExc where
  | valueError (msg : String)
  | keyError (key : String)
  | sqliteError
  | jsonDecodeError
  | fileNotFound
deriving DecidableEq

/-- A pending expense record of the JSON buffer (a Python dict whose keys
may be missing, hence `Option` fields).  `user` is attribution only and is
never read by the synchronizer. -/
structure BufferRecord where
  user : Option String
  amount : Option String
  category : Option String
  account : Option String
  description : Option String
  date : Option String
  timestamp : Option String
deriving DecidableEq

/-- One row of the `accounts` table: identity and unique name. -/
structure Account where
  id : Nat
  name : String
deriving DecidableEq

/-- One row of the `transactions` table, in the column order of the
`INSERT` statement of `insert_transaction`. -/
structure Row where
  account_id : Nat
  date : String
  amount : String
  category : String
  description : String
  type : String
  created_at : String
deriving DecidableEq

/-- The rows staged by `conn.execute` inside the currently open (not yet
committed) transaction of a connection. -/
structure Conn where
  staged : List Row
deriving DecidableEq

/-- Contents of the buffer file: absent, present but not valid JSON, or a
parsed ordered list of records (the buffer format is a JSON array). -/
inductive FileState where
  | absent
  | invalid
  | valid (records : List BufferRecord)
deriving DecidableEq

/-- Models `Path.exists()` on the buffer file. -/
def fileExists : FileState → Bool
  | .absent => false
  | .invalid => true
  | .valid _ => true

/-- Models `json.load` on the opened buffer file: returns the parsed list,
or raises `JSONDecodeError` on unparseable contents (opening an absent
file would raise `FileNotFoundError`, but both callers check existence
first). -/
def json_load : FileState → Except PyExc (List BufferRecord)
  | .valid records => .ok records
  | .invalid => .error .jsonDecodeError
  | .absent => .error .fileNotFound

/-- Models dict subscripting `transaction[key]`: raises `KeyError` when
the key is missing. -/
def getKey (key : String) : Option String → Except PyExc String
  | some v => .ok v
  | none => .error (.keyError key)

/-- The whole world the synchronizer touches: the buffer file, the SQLite
database (existence, accounts, committed transactions) and the
external-failure behaviour of connecting and of executing inserts. -/
structure Env where
  bufferFile : FileState
  dbExists : Bool
  connectFails : Bool
  accounts : List Account
  transactions : List Row
  insertFails : Row → Bool

/-- Embeds `load_buffer` of `src/cloud_bot/cloud_bot.py`: load the buffer
JSON, returning `[]` if the file is absent, and catching `JSONDecodeError`
(empty or corrupted file) by returning `[]`. -/
def load_buffer (fs : FileState) : Except PyExc (List BufferRecord) :=
  if fileExists fs then
    match json_load fs with
    | .ok data => .ok data
    | .error .jsonDecodeError => .ok []
    | .error e => .error e
  else
    .ok []

/-- Outcome of `get_db_connection`: either the process exits or a fresh
connection (with an empty open transaction) is produced. -/
inductive ConnResult where
  | exit (code : Nat)
  | conn
deriving DecidableEq

/-- Embeds `get_db_connection` of `src/pc_bot/sync.py`: `sys.exit(1)` when
the database file does not exist, `sys.exit(1)` when `sqlite3.connect`
raises, otherwise a connection. -/
def get_db_connection (env : Env) : ConnResult :=
  if !env.dbExists then .exit 1
  else if env.connectFails then .exit 1
  else .conn

/-- Embeds `get_account_id` of `src/pc_bot/sync.py`: first row of
`SELECT id FROM accounts WHERE name = ?`, else raise `ValueError`.  The
SQL `=` comparison on the name is exact string equality (binary
collation). -/
def get_account_id (accounts : List Account) (account_name : String) : Except PyExc Nat :=
  match accounts.find? (fun a => a.name == account_name) with
  | some a => .ok a.id
  | none => .error (.valueError ("CRITICAL: Account " ++ account_name ++ " not found in the database. Cannot sync transaction."))

/-- Models a Python `try ... except ValueError: return None` around a
computation: a raised `ValueError` is caught (the handler prints and falls
through), every other exception propagates. -/
def tryValueError {α : Type} (m : Except PyExc α) : Except PyExc (Option α) :=
  match m with
  | .ok v => .ok (some v)
  | .error (.valueError _) => .ok none
  | .error e => .error e

/-- Models `conn.execute(INSERT ..., data)`: stages the row in the open
transaction, or raises `sqlite3.Error` when the backing store fails on
this row. -/
def executeInsert (insertFails : Row → Bool) (conn : Conn) (data : Row) : Except PyExc Conn :=
  if insertFails data then .error .sqliteError
  else .ok ⟨conn.staged ++ [data]⟩

/-- Embeds `insert_transaction` of `src/pc_bot/sync.py`.  Step 1 looks up
the account id, catching only `ValueError` (unknown account → `False`);
the subscript `transaction[...]` raises `KeyError` on a missing key, which
is not a `ValueError` and propagates.  Steps 2–3 build the data tuple with
type fixed to `"expense"` and `created_at` the buffer timestamp.  Step 4
executes the `INSERT`, catching `sqlite3.Error` (→ `False`).  Returns
whether the record was staged, with the connection state. -/
def insert_transaction (accounts : List Account) (insertFails : Row → Bool)
    (conn : Conn) (transaction : BufferRecord) : Except PyExc (Bool × Conn) :=
  match tryValueError ((getKey "account" transaction.account).bind (get_account_id accounts)) with
  | .error e => .error e
  | .ok none => .ok (false, conn)
  | .ok (some account_id) =>
    match getKey "date" transaction.date with
    | .error e => .error e
    | .ok date =>
      match getKey "amount" transaction.amount with
      | .error e => .error e
      | .ok amount =>
        match getKey "category" transaction.category with
        | .error e => .error e
        | .ok category =>
          match getKey "description" transaction.description with
          | .error e => .error e
          | .ok description =>
            match getKey "timestamp" transaction.timestamp with
            | .error e => .error e
            | .ok timestamp =>
              let data : Row := ⟨account_id, date, amount, category, description, "expense", timestamp⟩
              match executeInsert insertFails conn data with
              | .ok conn1 => .ok (true, conn1)
              | .error .sqliteError => .ok (false, conn)
              | .error e => .error e

/-- Embeds the list comprehension
`results = [insert_transaction(conn, t) for t in buffer_data]` of
`sync_buffer`: records are processed left to right on the shared
connection, collecting the per-record booleans; an uncaught exception in
`insert_transaction` aborts the comprehension and propagates. -/
def runScan (accounts : List Account) (insertFails : Row → Bool) :
    Conn → List BufferRecord → Except PyExc (List Bool × Conn)
  | conn, [] => .ok ([], conn)
  | conn, t :: ts =>
    match insert_transaction accounts insertFails conn t with
    | .error e => .error e
    | .ok (b, conn1) =>
      match runScan accounts insertFails conn1 ts with
      | .error e => .error e
      | .ok (bs, conn2) => .ok (b :: bs, conn2)

/-- Models Python `sum(results)` on a list of booleans: the number of
`True` entries. -/
def sumBools : List Bool → Nat
  | [] => 0
  | b :: bs => (if b then 1 else 0) + sumBools bs

/-- What one invocation of `sync_buffer` does to the process: either
`sys.exit(code)` inside `get_db_connection`, or a normal return of the
synced count. -/
inductive SyncOutcome where
  | exited (code : Nat)
  | returned (count : Nat)
deriving DecidableEq

/-- Embeds `sync_buffer` of `src/pc_bot/sync.py`.  Result: the outcome
(exit or returned count), the buffer file contents afterwards, and the
committed `transactions` rows afterwards.  Mirrors the source: early
return 0 on absent file, on `JSONDecodeError`, and on a falsy (empty)
list; then `get_db_connection`; then the comprehension over the batch;
commit and clear the buffer iff `sum(results) == len(buffer_data)`, else
rollback; an exception escaping the comprehension is caught by the
pass-level handler, which rolls back and leaves `count_synced` at its
initial 0. -/
def sync_buffer (env : Env) : SyncOutcome × FileState × List Row :=
  match env.bufferFile with
  | .absent => (.returned 0, env.bufferFile, env.transactions)
  | .invalid => (.returned 0, env.bufferFile, env.transactions)
  | .valid buffer_data =>
    if buffer_data.isEmpty then (.returned 0, env.bufferFile, env.transactions)
    else
      match get_db_connection env with
      | .exit code => (.exited code, env.bufferFile, env.transactions)
      | .conn =>
        match runScan env.accounts env.insertFails ⟨[]⟩ buffer_data with
        | .ok (results, conn1) =>
          let count_synced := sumBools results
          if count_synced = buffer_data.length then
            (.returned count_synced, .valid [], env.transactions ++ conn1.staged)
          else
            (.returned count_synced, env.bufferFile, env.transactions)
        | .error _ =>
          (.returned 0, env.bufferFile, env.transactions)

/-- Does the record's `account` entry name an existing account?  (`none`
when the key is missing.) -/
def resolvesAccount (accounts : List Account) (r : BufferRecord) : Bool :=
  match r.account with
  | some n => (accounts.find? (fun a => a.name == n)).isSome
  | none => false

/-- Does the record carry every key that `insert_transaction` subscripts? -/
def complete (r : BufferRecord) : Bool :=
  r.account.isSome && r.date.isSome && r.amount.isSome && r.category.isSome
    && r.description.isSome && r.timestamp.isSome

/-- The account id `get_account_id` resolves the record to (0 when it does
not resolve; only used under `resolvesAccount`). -/
def resolvedId (accounts : List Account) (r : BufferRecord) : Nat :=
  match accounts.find? (fun a => a.name == r.account.getD "") with
  | some a => a.id
  | none => 0

/-- The `transactions` row a complete, resolving buffer record is staged
as: the record's date, amount, category and description, type fixed to
`"expense"`, and `created_at` the record's buffer timestamp. -/
def toRow (accounts : List Account) (r : BufferRecord) : Row :=
  ⟨resolvedId accounts r, r.date.getD "", r.amount.getD "", r.category.getD "",
    r.description.getD "", "expense", r.timestamp.getD ""⟩

/-- Exactly the records on which `insert_transaction` raises `KeyError`:
the `account` key itself is missing, or the account resolves but one of
the five other subscripted keys is missing.  (When the account key is
present but unknown, the caught `ValueError` preempts any `KeyError`.) -/
def raisesKeyError (accounts : List Account) (r : BufferRecord) : Bool :=
  r.account.isNone || (resolvesAccount accounts r && !complete r)

/-! ### Record-level lemmas about `insert_transaction` -/

/-- A record whose `account` key is present but names no existing account
fails softly: the caught `ValueError` yields `False` with nothing staged. -/
theorem insert_ok_false_of_unknown_account (accounts : List Account) (F : Row → Bool)
    (conn : Conn) (r : BufferRecord) (n : String) (hn : r.account = some n)
    (hfind : accounts.find? (fun a => a.name == n) = none) :
    insert_transaction accounts F conn r = .ok (false, conn) := by
  simp [insert_transaction, getKey, hn, get_account_id, hfind, tryValueError, Except.bind]

/-- A complete, resolving record whose insert execution succeeds is staged
as `toRow` and reported `True`. -/
theorem insert_ok_true_of_good (accounts : List Account) (F : Row → Bool)
    (conn : Conn) (r : BufferRecord) (hc : complete r = true)
    (hres : resolvesAccount accounts r = true)
    (hf : F (toRow accounts r) = false) :
    insert_transaction accounts F conn r = .ok (true, ⟨conn.staged ++ [toRow accounts r]⟩) := by
  rcases r with ⟨u, amount, category, account, description, date, timestamp⟩
  simp only [complete, Bool.and_eq_true, Option.isSome_iff_exists] at hc
  obtain ⟨⟨⟨⟨⟨⟨n, hn⟩, d, hd⟩, am, ham⟩, cat, hcat⟩, de, hde⟩, t, ht⟩ := hc
  subst hn hd ham hcat hde ht
  simp only [resolvesAccount, Option.isSome_iff_exists] at hres
  obtain ⟨a, hfind⟩ := hres
  simp only [toRow, resolvedId, Option.getD_some, hfind] at hf ⊢
  simp [insert_transaction, getKey, get_account_id, hfind, tryValueError,
    Except.bind, executeInsert, hf]

/-- A complete, resolving record whose insert execution raises
`sqlite3.Error` fails softly: the exception is caught per record, `False`
is reported, nothing is staged. -/
theorem insert_ok_false_of_execFail (accounts : List Account) (F : Row → Bool)
    (conn : Conn) (r : BufferRecord) (hc : complete r = true)
    (hres : resolvesAccount accounts r = true)
    (hf : F (toRow accounts r) = true) :
    insert_transaction accounts F conn r = .ok (false, conn) := by
  rcases r with ⟨u, amount, category, account, description, date, timestamp⟩
  simp only [complete, Bool.and_eq_true, Option.isSome_iff_exists] at hc
  obtain ⟨⟨⟨⟨⟨⟨n, hn⟩, d, hd⟩, am, ham⟩, cat, hcat⟩, de, hde⟩, t, ht⟩ := hc
  subst hn hd ham hcat hde ht
  simp only [resolvesAccount, Option.isSome_iff_exists] at hres
  obtain ⟨a, hfind⟩ := hres
  simp only [toRow, resolvedId, Option.getD_some, hfind] at hf ⊢
  simp [insert_transaction, getKey, get_account_id, hfind, tryValueError,
    Except.bind, executeInsert, hf]

/-- On a record that actually reaches a missing key, `insert_transaction`
raises `KeyError`: the per-record handler catches only `ValueError`, so
the `KeyError` escapes, whatever the connection state. -/
theorem insert_error_of_raisesKeyError (accounts : List Account) (F : Row → Bool)
    (r : BufferRecord) (hk : raisesKeyError accounts r = true) :
    ∃ k, ∀ conn, insert_transaction accounts F conn r = .error (.keyError k) := by
  rcases r with ⟨u, amount, category, account, description, date, timestamp⟩
  rcases account with _ | n
  · exact ⟨"account", fun conn => by
      simp [insert_transaction, getKey, tryValueError, Except.bind]⟩
  · simp only [raisesKeyError, Option.isNone_some, Bool.false_or, Bool.and_eq_true,
      Bool.not_eq_true'] at hk
    obtain ⟨hres, hc⟩ := hk
    simp only [resolvesAccount, Option.isSome_iff_exists] at hres
    obtain ⟨a, hfind⟩ := hres
    rcases date with _ | d
    · exact ⟨"date", fun conn => by
        simp [insert_transaction, getKey, get_account_id, hfind, tryValueError, Except.bind]⟩
    rcases amount with _ | am
    · exact ⟨"amount", fun conn => by
        simp [insert_transaction, getKey, get_account_id, hfind, tryValueError, Except.bind]⟩
    rcases category with _ | cat
    · exact ⟨"category", fun conn => by
        simp [insert_transaction, getKey, get_account_id, hfind, tryValueError, Except.bind]⟩
    rcases description with _ | de
    · exact ⟨"description", fun conn => by
        simp [insert_transaction, getKey, get_account_id, hfind, tryValueError, Except.bind]⟩
    rcases timestamp with _ | t
    · exact ⟨"timestamp", fun conn => by
        simp [insert_transaction, getKey, get_account_id, hfind, tryValueError, Except.bind]⟩
    · simp [complete] at hc

/-! ### Scan-level lemmas about `runScan` -/

/-- A completed scan reports one boolean per record of the batch. -/
theorem runScan_length (accounts : List Account) (F : Row → Bool) :
    ∀ (ts : List BufferRecord) (conn : Conn) (res : List Bool) (c : Conn),
      runScan accounts F conn ts = .ok (res, c) → res.length = ts.length := by
  intro ts
  induction ts with
  | nil =>
    intro conn res c h
    simp only [runScan, Except.ok.injEq, Prod.mk.injEq] at h
    simp [← h.1]
  | cons t ts ih =>
    intro conn res c h
    simp only [runScan] at h
    split at h
    · exact absurd h (by simp)
    · rename_i b conn1 h1
      split at h
      · exact absurd h (by simp)
      · rename_i bs conn2 h2
        simp only [Except.ok.injEq, Prod.mk.injEq] at h
        rw [← h.1]
        simp [ih conn1 bs conn2 h2]

/-- If some record of the batch fails individually whatever the connection
state (returning `False` and staging nothing), a completed scan's result
list contains a `False`. -/
theorem runScan_mem_false (accounts : List Account) (F : Row → Bool)
    (r : BufferRecord)
    (hr : ∀ conn, insert_transaction accounts F conn r = .ok (false, conn)) :
    ∀ (ts : List BufferRecord) (conn : Conn) (res : List Bool) (c : Conn),
      r ∈ ts → runScan accounts F conn ts = .ok (res, c) → false ∈ res := by
  intro ts
  induction ts with
  | nil => intro conn res c hmem; exact absurd hmem (by simp)
  | cons t ts ih =>
    intro conn res c hmem h
    simp only [runScan] at h
    split at h
    · exact absurd h (by simp)
    · rename_i b conn1 h1
      split at h
      · exact absurd h (by simp)
      · rename_i bs conn2 h2
        simp only [Except.ok.injEq, Prod.mk.injEq] at h
        rw [← h.1]
        rcases List.mem_cons.mp hmem with heq | htail
        · subst heq
          rw [hr conn] at h1
          simp only [Except.ok.injEq, Prod.mk.injEq] at h1
          simp [← h1.1]
        · exact List.mem_cons_of_mem _ (ih conn1 bs conn2 htail h2)

/-- If some record of the batch raises whatever the connection state, the
scan raises: either it reaches that record and raises there, or an earlier
record already raised. -/
theorem runScan_error_mem (accounts : List Account) (F : Row → Bool)
    (r : BufferRecord)
    (hr : ∀ conn, ∃ e, insert_transaction accounts F conn r = .error e) :
    ∀ (ts : List BufferRecord) (conn : Conn),
      r ∈ ts → ∃ e, runScan accounts F conn ts = .error e := by
  intro ts
  induction ts with
  | nil => intro conn hmem; exact absurd hmem (by simp)
  | cons t ts ih =>
    intro conn hmem
    rcases List.mem_cons.mp hmem with heq | htail
    · subst heq
      obtain ⟨e, he⟩ := hr conn
      exact ⟨e, by simp [runScan, he]⟩
    · rcases h1 : insert_transaction accounts F conn t with e | ⟨b, conn1⟩
      · exact ⟨e, by simp [runScan, h1]⟩
      · obtain ⟨e, he⟩ := ih conn1 htail
        exact ⟨e, by simp [runScan, h1, he]⟩

/-- Scanning a batch in which every record is complete, resolves, and
executes without a backing-store error stages exactly the batch's rows, in
batch order, and reports `True` for every record. -/
theorem runScan_all_good (accounts : List Account) (F : Row → Bool) :
    ∀ (ts : List BufferRecord) (conn : Conn),
      (∀ r ∈ ts, complete r = true ∧ resolvesAccount accounts r = true ∧
        F (toRow accounts r) = false) →
      runScan accounts F conn ts =
        .ok (List.replicate ts.length true, ⟨conn.staged ++ ts.map (toRow accounts)⟩) := by
  intro ts
  induction ts with
  | nil => intro conn _; simp [runScan]
  | cons t ts ih =>
    intro conn hall
    obtain ⟨hc, hres, hf⟩ := hall t (by simp)
    have h1 := insert_ok_true_of_good accounts F conn t hc hres hf
    have h2 := ih ⟨conn.staged ++ [toRow accounts t]⟩ (fun r hr => hall r (by simp [hr]))
    simp [runScan, h1, h2, List.replicate_succ]

/-- A batch of complete records never makes the scan raise: every
per-record failure mode (`ValueError`, `sqlite3.Error`) is caught. -/
theorem runScan_complete_ok (accounts : List Account) (F : Row → Bool) :
    ∀ (ts : List BufferRecord) (conn : Conn),
      (∀ r ∈ ts, complete r = true) →
      ∃ res c, runScan accounts F conn ts = .ok (res, c) ∧ res.length = ts.length := by
  intro ts
  induction ts with
  | nil => intro conn _; exact ⟨[], conn, by simp [runScan]⟩
  | cons t ts ih =>
    intro conn hall
    have hc := hall t (by simp)
    have hstep : ∃ b conn1, insert_transaction accounts F conn t = .ok (b, conn1) := by
      rcases hres : resolvesAccount accounts t with _ | _
      · have hn : ∃ n, t.account = some n := by
          rcases t with ⟨u, amount, category, account, description, date, timestamp⟩
          simp only [complete, Bool.and_eq_true, Option.isSome_iff_exists] at hc
          exact hc.1.1.1.1.1
        obtain ⟨n, hn⟩ := hn
        have hfind : accounts.find? (fun a => a.name == n) = none := by
          rcases hfe : accounts.find? (fun a => a.name == n) with _ | a
          · exact hfe
          · exact absurd hres (by simp [resolvesAccount, hn, hfe])
        exact ⟨false, conn, insert_ok_false_of_unknown_account accounts F conn t n hn hfind⟩
      · rcases hf : F (toRow accounts t) with _ | _
        · exact ⟨true, ⟨conn.staged ++ [toRow accounts t]⟩,
            insert_ok_true_of_good accounts F conn t hc hres hf⟩
        · exact ⟨false, conn, insert_ok_false_of_execFail accounts F conn t hc hres hf⟩
    obtain ⟨b, conn1, h1⟩ := hstep
    obtain ⟨bs, c2, h2, hlen⟩ := ih conn1 (fun r hr => hall r (by simp [hr]))
    exact ⟨b :: bs, c2, by simp [runScan, h1, h2], by simp [hlen]⟩

/-- The scan of a concatenated batch is the scan of the first part
followed by the scan of the second part from the resulting connection
state. -/
theorem runScan_append (accounts : List Account) (F : Row → Bool) :
    ∀ (xs ys : List BufferRecord) (conn : Conn),
      runScan accounts F conn (xs ++ ys) =
        match runScan accounts F conn xs with
        | .error e => .error e
        | .ok (bs, c) =>
          match runScan accounts F c ys with
          | .error e => .error e
          | .ok (bs2, c2) => .ok (bs ++ bs2, c2) := by
  intro xs
  induction xs with
  | nil => intro ys conn; simp [runScan]; rcases runScan accounts F conn ys with e | ⟨bs, c⟩ <;> simp
  | cons x xs ih =>
    intro ys conn
    simp only [List.cons_append, runScan]
    rcases h1 : insert_transaction accounts F conn x with e | ⟨b, conn1⟩
    · simp only [h1]
    · simp only [h1, List.append_eq, ih ys conn1]
      rcases h2 : runScan accounts F conn1 xs with e | ⟨bs, c⟩
      · simp only [h2]
      · simp only [h2]
        rcases h3 : runScan accounts F c ys with e | ⟨bs2, c2⟩ <;> simp only [h3, List.cons_append]

/-- Python `sum` over booleans is at most the number of summands. -/
theorem sumBools_le_length : ∀ res : List Bool, sumBools res ≤ res.length := by
  intro res
  induction res with
  | nil => simp [sumBools]
  | cons b bs ih => cases b <;> simp [sumBools] <;> omega

/-- A result list containing a `False` sums to strictly less than its
length. -/
theorem sumBools_lt_of_mem_false : ∀ res : List Bool, false ∈ res → sumBools res < res.length := by
  intro res h
  induction res with
  | nil => simp at h
  | cons b bs ih =>
    rcases List.mem_cons.mp h with hb | hb
    · rw [← hb]
      have hle := sumBools_le_length bs
      simp [sumBools]
      omega
    · have hlt := ih hb
      cases b <;> simp [sumBools] <;> omega

/-- An all-`True` result list sums to its length. -/
theorem sumBools_replicate_true : ∀ n : Nat, sumBools (List.replicate n true) = n := by
  intro n
  induction n with
  | zero => simp [sumBools]
  | succ n ih =>
    simp [List.replicate_succ, sumBools, ih]
    omega

/-! ### Concrete fixtures for witnesses and counterexamples -/

/-- An accounts table holding the single account `Cash Wallet`. -/
def cashAccounts : List Account := [⟨1, "Cash Wallet"⟩]

/-- A fully populated buffer record whose account `Cash Wallet` exists. -/
def rLunch : BufferRecord :=
  ⟨some "alice", some "12.50", some "Food", some "Cash Wallet", some "Lunch",
    some "2025-10-01", some "2025-10-01T12:00:00"⟩

/-- A fully populated buffer record whose account `Unknown Wallet` does
not exist. -/
def rUnknown : BufferRecord :=
  ⟨some "alice", some "7.00", some "Food", some "Unknown Wallet", some "Coffee",
    some "2025-10-02", some "2025-10-02T09:00:00"⟩

/-- A record whose account resolves but whose `date` key is missing. -/
def rNoDate : BufferRecord :=
  ⟨some "alice", some "5.00", some "Food", some "Cash Wallet", some "Snack",
    none, some "2025-10-05T10:00:00"⟩

/-- World with a two-record batch whose second record has an unknown
account; the database exists and inserts never fail. -/
def failEnv : Env :=
  ⟨.valid [rLunch, rUnknown], true, false, cashAccounts, [], fun _ => false⟩

/-- World with a single all-good record. -/
def successEnv : Env :=
  ⟨.valid [rLunch], true, false, cashAccounts, [], fun _ => false⟩

/-- World whose buffer file holds an empty list. -/
def emptyEnv : Env :=
  ⟨.valid [], true, false, cashAccounts, [], fun _ => false⟩

/-- World with a pending record but no database file. -/
def noDbEnv : Env :=
  ⟨.valid [rLunch], false, false, cashAccounts, [], fun _ => false⟩

/-- World with a single record lacking its `date` key. -/
def keyErrEnv : Env :=
  ⟨.valid [rNoDate], true, false, cashAccounts, [], fun _ => false⟩

/-! ### Claim theorems -/

/-- C1: for every buffer batch containing at least one record whose
account name does not resolve to an existing account, a sync pass commits
none of the batch's records to the relational store (the committed
`transactions` rows are unchanged; staged inserts are discarded by the
rollback) and leaves the buffer file untouched, its contents and record
order included. -/
theorem sync_unresolved_rolls_back (env : Env) (batch : List BufferRecord)
    (hbuf : env.bufferFile = .valid batch)
    (hfail : ∃ r ∈ batch, resolvesAccount env.accounts r = false) :
    (sync_buffer env).2.1 = env.bufferFile ∧ (sync_buffer env).2.2 = env.transactions := by
  obtain ⟨r, hr, hres⟩ := hfail
  rcases hE : batch.isEmpty with _ | _
  · rcases hcr : get_db_connection env with code | _
    · simp [sync_buffer, hbuf, hE, hcr]
    · rcases hscan : runScan env.accounts env.insertFails ⟨[]⟩ batch with e | ⟨results, conn1⟩
      · simp [sync_buffer, hbuf, hE, hcr, hscan]
      · rcases hacc : r.account with _ | n
        · obtain ⟨k, hker⟩ := insert_error_of_raisesKeyError env.accounts env.insertFails r
            (by simp [raisesKeyError, hacc])
          obtain ⟨e, he⟩ := runScan_error_mem env.accounts env.insertFails r
            (fun conn => ⟨.keyError k, hker conn⟩) batch ⟨[]⟩ hr
          rw [he] at hscan
          exact absurd hscan (by simp)
        · have hfind : env.accounts.find? (fun a => a.name == n) = none := by
            rcases hfe : env.accounts.find? (fun a => a.name == n) with _ | a
            · exact hfe
            · exact absurd hres (by simp [resolvesAccount, hacc, hfe])
          have hone : ∀ conn, insert_transaction env.accounts env.insertFails conn r
              = .ok (false, conn) :=
            fun conn => insert_ok_false_of_unknown_account env.accounts env.insertFails conn r
              n hacc hfind
          have hmem := runScan_mem_false env.accounts env.insertFails r hone batch ⟨[]⟩
            results conn1 hr hscan
          have hlen := runScan_length env.accounts env.insertFails batch ⟨[]⟩
            results conn1 hscan
          have hlt := sumBools_lt_of_mem_false results hmem
          rw [hlen] at hlt
          simp [sync_buffer, hbuf, hE, hcr, hscan, Nat.ne_of_lt hlt]
  · simp [sync_buffer, hbuf, hE]

/-- Witness for C1 at a concrete world: a batch `[rLunch, rUnknown]` whose
second record's account is unknown leaves the buffer file and the
committed rows unchanged. -/
theorem sync_unresolved_rolls_back_witness :
    (sync_buffer failEnv).2.1 = failEnv.bufferFile
      ∧ (sync_buffer failEnv).2.2 = failEnv.transactions :=
  sync_unresolved_rolls_back failEnv [rLunch, rUnknown] rfl (by decide)

/-- C2: for every buffer batch in which every record is complete, every
account name resolves and every insert execution succeeds, a sync pass
stages one `transactions` row per record — the record's date, amount,
category and description, the resolved account id, type fixed to
`"expense"` and `created_at` the record's original buffer timestamp —
commits them in batch order, rewrites the buffer file to an empty list
and returns the number of records in the batch. -/
theorem sync_full_success (env : Env) (batch : List BufferRecord)
    (hbuf : env.bufferFile = .valid batch)
    (hdb : env.dbExists = true) (hcf : env.connectFails = false)
    (hall : ∀ r ∈ batch, complete r = true ∧ resolvesAccount env.accounts r = true ∧
      env.insertFails (toRow env.accounts r) = false) :
    sync_buffer env = (.returned batch.length, .valid [],
        env.transactions ++ batch.map (toRow env.accounts))
      ∧ ∀ r ∈ batch, (toRow env.accounts r).type = "expense" ∧
        (toRow env.accounts r).created_at = r.timestamp.getD "" := by
  refine ⟨?_, fun r hr => ⟨rfl, rfl⟩⟩
  rcases batch with _ | ⟨t, ts⟩
  · simp [sync_buffer, hbuf]
  · have hscan := runScan_all_good env.accounts env.insertFails (t :: ts) ⟨[]⟩ hall
    simp [sync_buffer, hbuf, get_db_connection, hdb, hcf, hscan, sumBools_replicate_true]

/-- Witness for C2 at a concrete world: the single-record batch
`[rLunch]` is committed as one row and the buffer file is cleared. -/
theorem sync_full_success_witness :
    sync_buffer successEnv = (.returned ([rLunch].length), .valid [],
        successEnv.transactions ++ [rLunch].map (toRow successEnv.accounts))
      ∧ ∀ r ∈ [rLunch], (toRow successEnv.accounts r).type = "expense" ∧
        (toRow successEnv.accounts r).created_at = r.timestamp.getD "" :=
  sync_full_success successEnv [rLunch] rfl rfl rfl (by decide)

/-- C3 counterexample: on the batch `[rLunch, rUnknown]` the pass is
rolled back (buffer file and committed rows unchanged), yet `sync_buffer`
returns 1 — the in-memory count of the record that individually resolved
and staged — not 0 as the claim states. -/
theorem sync_rolled_back_returns_positive :
    sync_buffer failEnv = (.returned 1, .valid [rLunch, rUnknown], [])
      ∧ SyncOutcome.returned 1 ≠ SyncOutcome.returned 0 := by
  constructor
  · rfl
  · decide

/-- C3 amended: when the scan completes but not every record succeeded,
the pass is rolled back (buffer file and committed rows unchanged) and
`sync_buffer` returns `sum(results)` — the number of records that were
individually staged in memory during the pass — which is 0 only when no
record staged. -/
theorem sync_rollback_returns_staged_count (env : Env) (batch : List BufferRecord)
    (results : List Bool) (conn1 : Conn)
    (hbuf : env.bufferFile = .valid batch)
    (hdb : env.dbExists = true) (hcf : env.connectFails = false)
    (hscan : runScan env.accounts env.insertFails ⟨[]⟩ batch = .ok (results, conn1))
    (hne : sumBools results ≠ batch.length) :
    sync_buffer env = (.returned (sumBools results), env.bufferFile, env.transactions) := by
  rcases batch with _ | ⟨t, ts⟩
  · simp only [runScan, Except.ok.injEq, Prod.mk.injEq] at hscan
    rw [← hscan.1] at hne
    simp [sumBools] at hne
  · have hne2 : sumBools results ≠ ts.length + 1 := by simpa using hne
    simp [sync_buffer, hbuf, get_db_connection, hdb, hcf, hscan, hne2]

/-- Witness for the amended C3 at a concrete world: the rolled-back pass
over `[rLunch, rUnknown]` returns `sum([True, False]) = 1` and mutates
nothing. -/
theorem sync_rollback_returns_staged_count_witness :
    sync_buffer failEnv
      = (.returned (sumBools [true, false]), failEnv.bufferFile, failEnv.transactions) :=
  sync_rollback_returns_staged_count failEnv [rLunch, rUnknown] [true, false]
    ⟨[toRow failEnv.accounts rLunch]⟩ rfl rfl rfl (by rfl) (by decide)

/-- A complete record (description `first`) whose account resolves but
whose insert execution will raise `sqlite3.Error`. -/
def rFirst : BufferRecord :=
  ⟨some "alice", some "3.00", some "Food", some "Cash Wallet", some "first",
    some "2025-10-03", some "2025-10-03T08:00:00"⟩

/-- A complete, resolving record (description `second`) whose insert
execution succeeds. -/
def rSecond : BufferRecord :=
  ⟨some "alice", some "4.00", some "Food", some "Cash Wallet", some "second",
    some "2025-10-04", some "2025-10-04T08:00:00"⟩

/-- Backing-store behaviour that raises `sqlite3.Error` exactly on the
row carrying description `first`. -/
def failFirstInsert : Row → Bool := fun row => row.description == "first"

/-- World where the first record's insert raises `sqlite3.Error` and the
second record's insert succeeds. -/
def execFailEnv : Env :=
  ⟨.valid [rFirst, rSecond], true, false, cashAccounts, [], failFirstInsert⟩

/-- C4 counterexample: with the backing store raising `sqlite3.Error` on
the first record's insert, the scan does NOT abort — it still resolves and
stages the second record (`[False, True]`, row of `rSecond` staged) — so
the claim's "no records after the failing one are resolved or staged" is
false; the pass is then rolled back and returns 1. -/
theorem scan_continues_after_insert_error :
    runScan execFailEnv.accounts execFailEnv.insertFails ⟨[]⟩ [rFirst, rSecond]
        = .ok ([false, true], ⟨[toRow execFailEnv.accounts rSecond]⟩)
      ∧ sync_buffer execFailEnv = (.returned 1, .valid [rFirst, rSecond], []) := by
  constructor
  · rfl
  · rfl

/-- C4 amended: a backing-store error while staging one record is caught
per record: that record is reported failed, the scan continues over every
remaining record (one result per batch record), and — since not every
record succeeded — the pass's relational transaction is rolled back and
the buffer file is left untouched. -/
theorem sync_insert_error_fail_soft (env : Env) (batch : List BufferRecord)
    (results : List Bool) (conn1 : Conn)
    (hbuf : env.bufferFile = .valid batch)
    (hdb : env.dbExists = true) (hcf : env.connectFails = false)
    (hcomp : ∀ r ∈ batch, complete r = true)
    (hfail : ∃ r ∈ batch, resolvesAccount env.accounts r = true ∧
      env.insertFails (toRow env.accounts r) = true)
    (hscan : runScan env.accounts env.insertFails ⟨[]⟩ batch = .ok (results, conn1)) :
    results.length = batch.length ∧
      sync_buffer env = (.returned (sumBools results), env.bufferFile, env.transactions) := by
  obtain ⟨r, hr, hres, hf⟩ := hfail
  have hlen := runScan_length env.accounts env.insertFails batch ⟨[]⟩ results conn1 hscan
  have hone : ∀ conn, insert_transaction env.accounts env.insertFails conn r
      = .ok (false, conn) :=
    fun conn => insert_ok_false_of_execFail env.accounts env.insertFails conn r
      (hcomp r hr) hres hf
  have hmem := runScan_mem_false env.accounts env.insertFails r hone batch ⟨[]⟩
    results conn1 hr hscan
  have hlt := sumBools_lt_of_mem_false results hmem
  rw [hlen] at hlt
  refine ⟨hlen, ?_⟩
  rcases batch with _ | ⟨t, ts⟩
  · exact absurd hr (by simp)
  · have hne2 : sumBools results ≠ ts.length + 1 := by
      intro hcontra
      rw [hcontra] at hlt
      simp at hlt
    simp [sync_buffer, hbuf, get_db_connection, hdb, hcf, hscan, hne2]

/-- Witness for the amended C4 at a concrete world: scanning
`[rFirst, rSecond]` with the backing store failing on `rFirst` yields one
result per record and a rolled-back pass returning `sum([False, True])`. -/
theorem sync_insert_error_fail_soft_witness :
    ([false, true] : List Bool).length = [rFirst, rSecond].length ∧
      sync_buffer execFailEnv
        = (.returned (sumBools [false, true]), execFailEnv.bufferFile, execFailEnv.transactions) :=
  sync_insert_error_fail_soft execFailEnv [rFirst, rSecond] [false, true]
    ⟨[toRow execFailEnv.accounts rSecond]⟩ rfl rfl rfl (by decide) (by decide) (by rfl)

/-- C5: an account-resolution failure on one record does not stop the
scan: the failing record contributes exactly one per-record `False`,
stages nothing and leaves the connection state unchanged, and the
remaining records are scanned (resolved, and staged when they resolve and
execute) exactly as they would have been. -/
theorem scan_resolution_fail_soft (accounts : List Account) (F : Row → Bool)
    (conn : Conn) (pre post : List BufferRecord) (r : BufferRecord)
    (hc : complete r = true) (hres : resolvesAccount accounts r = false) :
    runScan accounts F conn (pre ++ r :: post) =
      match runScan accounts F conn pre with
      | .error e => .error e
      | .ok (bs, c) =>
        match runScan accounts F c post with
        | .error e => .error e
        | .ok (bs2, c2) => .ok (bs ++ false :: bs2, c2) := by
  have hn : ∃ n, r.account = some n := by
    rcases r with ⟨u, amount, category, account, description, date, timestamp⟩
    simp only [complete, Bool.and_eq_true, Option.isSome_iff_exists] at hc
    exact hc.1.1.1.1.1
  obtain ⟨n, hn⟩ := hn
  have hfind : accounts.find? (fun a => a.name == n) = none := by
    rcases hfe : accounts.find? (fun a => a.name == n) with _ | a
    · exact hfe
    · exact absurd hres (by simp [resolvesAccount, hn, hfe])
  have hone : ∀ c, insert_transaction accounts F c r = .ok (false, c) :=
    fun c => insert_ok_false_of_unknown_account accounts F c r n hn hfind
  rw [runScan_append accounts F pre (r :: post) conn]
  rcases h1 : runScan accounts F conn pre with e | ⟨bs, c⟩
  · rfl
  · simp only [runScan, hone c]
    rcases h2 : runScan accounts F c post with e | ⟨bs2, c2⟩ <;> simp only [h2]

/-- Witness for C5 at a concrete world: scanning
`[rLunch] ++ rUnknown :: [rSecond]` records a single `False` for the
unknown-account record and proceeds over the rest unchanged. -/
theorem scan_resolution_fail_soft_witness :
    runScan cashAccounts (fun _ => false) ⟨[]⟩ ([rLunch] ++ rUnknown :: [rSecond]) =
      match runScan cashAccounts (fun _ => false) ⟨[]⟩ [rLunch] with
      | .error e => .error e
      | .ok (bs, c) =>
        match runScan cashAccounts (fun _ => false) c [rSecond] with
        | .error e => .error e
        | .ok (bs2, c2) => .ok (bs ++ false :: bs2, c2) :=
  scan_resolution_fail_soft cashAccounts (fun _ => false) ⟨[]⟩ [rLunch] [rSecond] rUnknown
    (by decide) (by decide)

/-- C6: account resolution succeeds iff some account's name equals the
looked-up string under exact (case-sensitive) comparison; with no such
account it raises `ValueError`, and a record carrying such an unknown
account name is reported as that record's failure (`False`, nothing
staged).  Resolution is a pure lookup over the accounts table and creates
nothing. -/
theorem get_account_id_exact_match (accounts : List Account) (account_name : String) :
    ((∃ i, get_account_id accounts account_name = .ok i) ↔
      ∃ a ∈ accounts, a.name = account_name)
    ∧ ((∀ a ∈ accounts, a.name ≠ account_name) →
      ∃ msg, get_account_id accounts account_name = .error (.valueError msg))
    ∧ (∀ (F : Row → Bool) (conn : Conn) (r : BufferRecord),
      r.account = some account_name → (∀ a ∈ accounts, a.name ≠ account_name) →
      insert_transaction accounts F conn r = .ok (false, conn)) := by
  refine ⟨?_, ?_, ?_⟩
  · constructor
    · intro hok
      obtain ⟨i, hi⟩ := hok
      rcases hfe : accounts.find? (fun a => a.name == account_name) with _ | a
      · simp [get_account_id, hfe] at hi
      · have hp := List.find?_some hfe
        have hmem := List.mem_of_find?_eq_some hfe
        exact ⟨a, hmem, by simpa using hp⟩
    · intro hex
      obtain ⟨a, hmem, hname⟩ := hex
      rcases hfe : accounts.find? (fun x => x.name == account_name) with _ | b
      · rw [List.find?_eq_none] at hfe
        exact absurd (by simpa using hname) (hfe a hmem)
      · exact ⟨b.id, by simp [get_account_id, hfe]⟩
  · intro hnone
    have hfe : accounts.find? (fun a => a.name == account_name) = none := by
      rw [List.find?_eq_none]
      intro a hmem
      simpa using hnone a hmem
    exact ⟨"CRITICAL: Account " ++ account_name
      ++ " not found in the database. Cannot sync transaction.",
      by simp [get_account_id, hfe]⟩
  · intro F conn r hacc hnone
    have hfe : accounts.find? (fun a => a.name == account_name) = none := by
      rw [List.find?_eq_none]
      intro a hmem
      simpa using hnone a hmem
    exact insert_ok_false_of_unknown_account accounts F conn r account_name hacc hfe

/-- Witness for C6 at a concrete input: looking up `cash wallet` in a
table holding only `Cash Wallet` fails — comparison is case-sensitive —
raising `ValueError`, and a record naming it is reported failed. -/
theorem get_account_id_exact_match_witness :
    ((∃ i, get_account_id cashAccounts "cash wallet" = .ok i) ↔
      ∃ a ∈ cashAccounts, a.name = "cash wallet")
    ∧ ((∀ a ∈ cashAccounts, a.name ≠ "cash wallet") →
      ∃ msg, get_account_id cashAccounts "cash wallet" = .error (.valueError msg))
    ∧ (∀ (F : Row → Bool) (conn : Conn) (r : BufferRecord),
      r.account = some "cash wallet" → (∀ a ∈ cashAccounts, a.name ≠ "cash wallet") →
      insert_transaction cashAccounts F conn r = .ok (false, conn)) :=
  get_account_id_exact_match cashAccounts "cash wallet"

/-- C7: a sync pass over an absent buffer file or a buffer holding an
empty list is a no-op: it returns 0, commits no rows, and does not touch
the buffer file. -/
theorem sync_empty_noop (env : Env)
    (h : env.bufferFile = .absent ∨ env.bufferFile = .valid []) :
    sync_buffer env = (.returned 0, env.bufferFile, env.transactions) := by
  rcases h with h | h <;> simp [sync_buffer, h]

/-- Witness for C7 at a concrete world whose buffer file holds `[]`. -/
theorem sync_empty_noop_witness :
    sync_buffer emptyEnv = (.returned 0, emptyEnv.bufferFile, emptyEnv.transactions) :=
  sync_empty_noop emptyEnv (Or.inr rfl)

/-- C8: `load_buffer` never raises: it returns the stored record list
when the file holds valid data, and the empty list when the file is
absent or its contents are not valid JSON. -/
theorem load_buffer_lenient (fs : FileState) :
    load_buffer fs = .ok (match fs with
      | .valid records => records
      | .absent => []
      | .invalid => []) := by
  rcases fs with _ | _ | records <;> rfl

/-- C9: when the batch holds a record on which the scan actually reaches
a missing key — its `account` key is absent, or its account resolves and
one of the other subscripted keys is absent — `insert_transaction` raises
`KeyError`, which the per-record `ValueError` handler does not catch; the
pass-level handler rolls the transaction back, the buffer file is left
untouched, and `sync_buffer` returns 0 (its initial count). -/
theorem sync_missing_key_rolls_back (env : Env) (batch : List BufferRecord)
    (r : BufferRecord)
    (hbuf : env.bufferFile = .valid batch)
    (hdb : env.dbExists = true) (hcf : env.connectFails = false)
    (hr : r ∈ batch) (hk : raisesKeyError env.accounts r = true) :
    (∃ k, ∀ conn, insert_transaction env.accounts env.insertFails conn r
        = .error (.keyError k))
      ∧ sync_buffer env = (.returned 0, env.bufferFile, env.transactions) := by
  obtain ⟨k, hker⟩ := insert_error_of_raisesKeyError env.accounts env.insertFails r hk
  refine ⟨⟨k, hker⟩, ?_⟩
  obtain ⟨e, he⟩ := runScan_error_mem env.accounts env.insertFails r
    (fun conn => ⟨.keyError k, hker conn⟩) batch ⟨[]⟩ hr
  rcases batch with _ | ⟨t, ts⟩
  · exact absurd hr (by simp)
  · simp [sync_buffer, hbuf, get_db_connection, hdb, hcf, he]

/-- Witness for C9 at a concrete world: a batch holding `rNoDate` (account
resolves, `date` key missing) makes the pass roll back and return 0. -/
theorem sync_missing_key_rolls_back_witness :
    (∃ k, ∀ conn, insert_transaction keyErrEnv.accounts keyErrEnv.insertFails conn rNoDate
        = .error (.keyError k))
      ∧ sync_buffer keyErrEnv = (.returned 0, keyErrEnv.bufferFile, keyErrEnv.transactions) :=
  sync_missing_key_rolls_back keyErrEnv [rNoDate] rNoDate rfl rfl rfl (by decide) (by decide)

/-- C10: when the database file does not exist and the buffer file holds
a valid non-empty batch, `get_db_connection` terminates the process with
exit code 1: `sync_buffer` never returns a count, no rows are committed,
and the buffer file is not modified. -/
theorem sync_db_missing_exits (env : Env) (batch : List BufferRecord)
    (hbuf : env.bufferFile = .valid batch) (hne : batch ≠ [])
    (hdb : env.dbExists = false) :
    sync_buffer env = (.exited 1, env.bufferFile, env.transactions) := by
  rcases batch with _ | ⟨t, ts⟩
  · exact absurd rfl hne
  · simp [sync_buffer, hbuf, get_db_connection, hdb]

/-- Witness for C10 at a concrete world with a pending record and no
database file. -/
theorem sync_db_missing_exits_witness :
    sync_buffer noDbEnv = (.exited 1, noDbEnv.bufferFile, noDbEnv.transactions) :=
  sync_db_missing_exits noDbEnv [rLunch] rfl (by decide) rfl

end ExpenseSync
